import Mathlib

/-!
Verification of the date/time-format core (js-date-time-format.cc).

The C++ source is shallowly embedded below: strings are lists of
characters, ICU and the surrounding runtime are abstracted as an explicit
`Engine` record of total functions, JavaScript option bags are association
lists with a prototype chain, and every fallible operation returns
`Except IntlError`.
-/

/-- Strings from the C++ source are modelled as lists of characters. -/
abbrev Str := List Char

/-! ## ASCII helpers (IsInRange, IsAsciiAlpha, case mapping) -/

/-- Embeds the `IsInRange(ch, lo, hi)` checks used by the source. -/
def IsInRange (c lo hi : Char) : Bool := lo ≤ c && c ≤ hi

/-- Locale-independent `isalpha` for the ASCII range (source `IsAsciiAlpha`). -/
def IsAsciiAlpha (c : Char) : Bool := IsInRange c 'A' 'Z' || IsInRange c 'a' 'z'

/-- Locale-independent `toupper` for the ASCII range
(source `LocaleIndependentAsciiToUpper`, `ch - 'a' + 'A'`). -/
def LocaleIndependentAsciiToUpper (c : Char) : Char :=
  if IsInRange c 'a' 'z' then Char.ofNat (c.toNat - 32) else c

/-- Locale-independent `tolower` for the ASCII range
(source `LocaleIndependentAsciiToLower`, `ch - 'A' + 'a'`). -/
def LocaleIndependentAsciiToLower (c : Char) : Char :=
  if IsInRange c 'A' 'Z' then Char.ofNat (c.toNat + 32) else c

/-- The `transform(upper.begin(), ..., LocaleIndependentAsciiToUpper)` step
of `CanonicalizeTimeZoneID`. -/
def UpperAscii (input : Str) : Str := input.map LocaleIndependentAsciiToUpper

/-! ## GMT offset grammar (source `GetGMTTzID`) -/

/-- Embeds `GetGMTTzID`: the switch on `input.length()` with the
`Etc/GMT0` / `Etc/GMT[+-]d` / `Etc/GMT[+-]1[0-4]` shapes.  Out-of-range
reads `input[i]` cannot occur because every access is guarded by the
length check, so `List.getD` with a dummy default is faithful. -/
def GetGMTTzID (input : Str) : Str :=
  if input.length = 8 then
    if input.getD 7 ' ' = '0' then "Etc/GMT".toList ++ ['0'] else []
  else if input.length = 9 then
    if (input.getD 7 ' ' = '+' ∨ input.getD 7 ' ' = '-') ∧
        IsInRange (input.getD 8 ' ') '0' '9' = true then
      "Etc/GMT".toList ++ [input.getD 7 ' ', input.getD 8 ' ']
    else []
  else if input.length = 10 then
    if (input.getD 7 ' ' = '+' ∨ input.getD 7 ' ' = '-') ∧ input.getD 8 ' ' = '1' ∧
        IsInRange (input.getD 9 ' ') '0' '4' = true then
      "Etc/GMT".toList ++ [input.getD 7 ' ', input.getD 8 ' ', input.getD 9 ' ']
    else []
  else []

/-! ## Title-case location grammar (source `ToTitleCaseTimezoneLocation`) -/

/-- One separator character of the location grammar. -/
def IsSeparator (c : Char) : Bool := c = '_' || c = '-' || c = '/'

/-- The special-casing of a just-finished two-letter word at a separator:
if the last two accumulated characters are "Of", "Es" or "Au", the first of
them is lowercased in place (source: the `word_length == 2` block). -/
def SpecialCaseWord (acc : Str) (wordLength : Nat) : Str :=
  if wordLength = 2 then
    let pos := acc.length - 2
    let sub := (acc.drop pos).take 2
    if sub = "Of".toList ∨ sub = "Es".toList ∨ sub = "Au".toList then
      acc.set pos (LocaleIndependentAsciiToLower (acc.getD pos ' '))
    else acc
  else acc

/-- The character loop of `ToTitleCaseTimezoneLocation`; `none` models the
early `return std::string()` on an invalid character. -/
def TitleLoop : Str → Str → Nat → Option Str
  | [], acc, _ => some acc
  | c :: rest, acc, wordLength =>
    if IsAsciiAlpha c then
      TitleLoop rest
        (acc ++ [if wordLength = 0 then LocaleIndependentAsciiToUpper c
                 else LocaleIndependentAsciiToLower c])
        (wordLength + 1)
    else if IsSeparator c then
      TitleLoop rest (SpecialCaseWord acc wordLength ++ [c]) 0
    else
      none

/-- Embeds `ToTitleCaseTimezoneLocation`.  The C++ function returns the
empty string both for an invalid character and for empty input, which
`Option.getD []` reproduces. -/
def ToTitleCaseTimezoneLocation (input : Str) : Str :=
  (TitleLoop input [] 0).getD []

/-! ## Time zone canonicalization (source `JSDateTimeFormat::CanonicalizeTimeZoneID`) -/

/-- Embeds `CanonicalizeTimeZoneID`: UTC aliases, then the `strncmp`
prefix test against "ETC/GMT" (equivalent to `isPrefixOf` on the
uppercased input), then the title-case grammar. -/
def CanonicalizeTimeZoneID (input : Str) : Str :=
  if UpperAscii input = "UTC".toList ∨ UpperAscii input = "GMT".toList ∨
      UpperAscii input = "ETC/UTC".toList ∨ UpperAscii input = "ETC/GMT".toList then
    "UTC".toList
  else if "ETC/GMT".toList.isPrefixOf (UpperAscii input) then
    GetGMTTzID input
  else
    ToTitleCaseTimezoneLocation input

/-- C3: `canonicalizeTimeZone` returns "UTC" for the four case-insensitive
aliases; any other input whose uppercased form starts with "ETC/GMT" is
delegated to the GMT-offset grammar on the original-case characters, where
length 8 requires a final '0', length 9 a `[+-][0-9]` suffix, length 10 a
`[+-]1[0-4]` suffix, and every other length or shape is invalid; in
particular "Etc/GMT+15" is invalid and "Etc/GMT+5" canonicalizes to
itself. -/
theorem claim_C3_canonicalize_gmt (input : Str) :
    (UpperAscii input = "UTC".toList ∨ UpperAscii input = "GMT".toList ∨
       UpperAscii input = "ETC/UTC".toList ∨ UpperAscii input = "ETC/GMT".toList →
      CanonicalizeTimeZoneID input = "UTC".toList) ∧
    (¬(UpperAscii input = "UTC".toList ∨ UpperAscii input = "GMT".toList ∨
        UpperAscii input = "ETC/UTC".toList ∨ UpperAscii input = "ETC/GMT".toList) →
      "ETC/GMT".toList.isPrefixOf (UpperAscii input) = true →
      CanonicalizeTimeZoneID input = GetGMTTzID input) ∧
    (input.length = 8 →
      GetGMTTzID input =
        (if input.getD 7 ' ' = '0' then "Etc/GMT0".toList else [])) ∧
    (input.length = 9 →
      GetGMTTzID input =
        (if (input.getD 7 ' ' = '+' ∨ input.getD 7 ' ' = '-') ∧
            ('0' ≤ input.getD 8 ' ' ∧ input.getD 8 ' ' ≤ '9') then
          "Etc/GMT".toList ++ [input.getD 7 ' ', input.getD 8 ' ']
        else [])) ∧
    (input.length = 10 →
      GetGMTTzID input =
        (if (input.getD 7 ' ' = '+' ∨ input.getD 7 ' ' = '-') ∧ input.getD 8 ' ' = '1' ∧
            ('0' ≤ input.getD 9 ' ' ∧ input.getD 9 ' ' ≤ '4') then
          "Etc/GMT".toList ++ [input.getD 7 ' ', input.getD 8 ' ', input.getD 9 ' ']
        else [])) ∧
    (input.length ≠ 8 → input.length ≠ 9 → input.length ≠ 10 → GetGMTTzID input = []) ∧
    CanonicalizeTimeZoneID "Etc/GMT+15".toList = [] ∧
    CanonicalizeTimeZoneID "Etc/GMT+5".toList = "Etc/GMT+5".toList := by
  refine ⟨?_, ?_, ?_, ?_, ?_, ?_, by decide, by decide⟩
  · intro h
    rw [CanonicalizeTimeZoneID, if_pos h]
  · intro h hpre
    rw [CanonicalizeTimeZoneID, if_neg h, if_pos hpre]
  · intro h
    rw [GetGMTTzID, if_pos h]
    split <;> decide
  · intro h
    have h8 : ¬(input.length = 8) := by omega
    rw [GetGMTTzID, if_neg h8, if_pos h]
    simp only [IsInRange, Bool.and_eq_true, decide_eq_true_eq]
  · intro h
    have h8 : ¬(input.length = 8) := by omega
    have h9 : ¬(input.length = 9) := by omega
    rw [GetGMTTzID, if_neg h8, if_neg h9, if_pos h]
    simp only [IsInRange, Bool.and_eq_true, decide_eq_true_eq]
  · intro h8 h9 h10
    rw [GetGMTTzID, if_neg h8, if_neg h9, if_neg h10]

/-- Witness for C3 at the concrete input "etc/gmt+3": the aliases do not
match, the uppercased form starts with "ETC/GMT", and the length-9 grammar
produces "Etc/GMT+3". -/
theorem claim_C3_witness :
    CanonicalizeTimeZoneID "etc/gmt+3".toList = GetGMTTzID "etc/gmt+3".toList ∧
    GetGMTTzID "etc/gmt+3".toList = "Etc/GMT+3".toList := by
  constructor
  · exact (claim_C3_canonicalize_gmt "etc/gmt+3".toList).2.1 (by decide) (by decide)
  · have h := (claim_C3_canonicalize_gmt "etc/gmt+3".toList).2.2.2.1 (by decide)
    rw [h]
    decide

/-! ## Word-structured reference for the title-case grammar (C4) -/

/-- Title-casing of a single word: first character uppercased, the rest
lowercased, per the spec's description of the location grammar. -/
def TitleCaseWord : Str → Str
  | [] => []
  | c :: cs => LocaleIndependentAsciiToUpper c :: cs.map LocaleIndependentAsciiToLower

/-- Whether a word is (case-insensitively) one of the special words
"of", "es", "au". -/
def IsSpecialShortWord (w : Str) : Bool :=
  w.map LocaleIndependentAsciiToLower = "of".toList ||
  w.map LocaleIndependentAsciiToLower = "es".toList ||
  w.map LocaleIndependentAsciiToLower = "au".toList

/-- Reference treatment of a word that is followed by a separator:
special short words are fully lowercased, all others are title-cased. -/
def SpecNonFinalWord (w : Str) : Str :=
  if IsSpecialShortWord w then w.map LocaleIndependentAsciiToLower else TitleCaseWord w

/-- Rebuilds an input string from its separator-delimited decomposition:
each pair is a word together with the separator following it, and the
final word has no trailing separator. -/
def RenderLocation : List (Str × Char) → Str → Str
  | [], last => last
  | (w, s) :: rest, last => w ++ s :: RenderLocation rest last

/-- The word-by-word reference output of the title-case grammar: words
followed by a separator receive the special-word treatment, the final word
is only title-cased. -/
def SpecTitleCaseLocation : List (Str × Char) → Str → Str
  | [], last => TitleCaseWord last
  | (w, s) :: rest, last => SpecNonFinalWord w ++ s :: SpecTitleCaseLocation rest last

/-! ### ASCII case facts -/

theorem asciiAlpha_toNat_lt (c : Char) (h : IsAsciiAlpha c = true) : c.toNat < 123 := by
  unfold IsAsciiAlpha IsInRange at h
  simp only [Bool.or_eq_true, Bool.and_eq_true, decide_eq_true_eq] at h
  rcases h with ⟨_, h2⟩ | ⟨_, h2⟩
  · rw [Char.le_def] at h2
    have h3 : c.toNat ≤ 90 := h2
    omega
  · rw [Char.le_def] at h2
    have h3 : c.toNat ≤ 122 := h2
    omega

theorem ascii_case_facts_bounded :
    ∀ n, n < 123 → IsAsciiAlpha (Char.ofNat n) = true →
      LocaleIndependentAsciiToLower (LocaleIndependentAsciiToUpper (Char.ofNat n)) =
        LocaleIndependentAsciiToLower (Char.ofNat n) ∧
      ((LocaleIndependentAsciiToUpper (Char.ofNat n) = 'O') ↔
        (LocaleIndependentAsciiToLower (Char.ofNat n) = 'o')) ∧
      ((LocaleIndependentAsciiToUpper (Char.ofNat n) = 'E') ↔
        (LocaleIndependentAsciiToLower (Char.ofNat n) = 'e')) ∧
      ((LocaleIndependentAsciiToUpper (Char.ofNat n) = 'A') ↔
        (LocaleIndependentAsciiToLower (Char.ofNat n) = 'a')) := by decide

theorem ascii_case_facts (c : Char) (h : IsAsciiAlpha c = true) :
    LocaleIndependentAsciiToLower (LocaleIndependentAsciiToUpper c) =
      LocaleIndependentAsciiToLower c ∧
    ((LocaleIndependentAsciiToUpper c = 'O') ↔ (LocaleIndependentAsciiToLower c = 'o')) ∧
    ((LocaleIndependentAsciiToUpper c = 'E') ↔ (LocaleIndependentAsciiToLower c = 'e')) ∧
    ((LocaleIndependentAsciiToUpper c = 'A') ↔ (LocaleIndependentAsciiToLower c = 'a')) := by
  have hb := asciiAlpha_toNat_lt c h
  have hf := ascii_case_facts_bounded c.toNat hb
  rw [Char.ofNat_toNat] at hf
  exact hf h

theorem separator_not_alpha (c : Char) (h : IsSeparator c = true) : IsAsciiAlpha c = false := by
  unfold IsSeparator at h
  simp only [Bool.or_eq_true, decide_eq_true_eq] at h
  rcases h with (h | h) | h <;> subst h <;> decide

theorem set_append_length (l1 l2 : List Char) (a : Char) :
    (l1 ++ l2).set l1.length a = l1 ++ l2.set 0 a := by
  induction l1 with
  | nil => simp [List.set]
  | cons c t ih => simp [List.set, ih]

/-! ### Loop lemmas for `ToTitleCaseTimezoneLocation` -/

theorem titleLoop_word_tail (cs : Str) :
    cs.all IsAsciiAlpha = true →
    ∀ rest acc n, n ≠ 0 →
      TitleLoop (cs ++ rest) acc n =
        TitleLoop rest (acc ++ cs.map LocaleIndependentAsciiToLower) (n + cs.length) := by
  induction cs with
  | nil => intro _ rest acc n _; simp
  | cons c cs ih =>
    intro hall rest acc n hn
    simp only [List.all_cons, Bool.and_eq_true] at hall
    have step : TitleLoop (c :: (cs ++ rest)) acc n =
        TitleLoop (cs ++ rest) (acc ++ [LocaleIndependentAsciiToLower c]) (n + 1) := by
      rw [TitleLoop, if_pos hall.1, if_neg hn]
    rw [List.cons_append, step, ih hall.2 rest _ (n + 1) (by omega)]
    simp only [List.append_assoc, List.map, List.singleton_append, List.length_cons]
    have harith : n + 1 + cs.length = n + (cs.length + 1) := by omega
    rw [harith]

theorem titleLoop_word (w : Str) (hall : w.all IsAsciiAlpha = true) (rest acc : Str) :
    TitleLoop (w ++ rest) acc 0 = TitleLoop rest (acc ++ TitleCaseWord w) w.length := by
  cases w with
  | nil => simp [TitleCaseWord]
  | cons c cs =>
    simp only [List.all_cons, Bool.and_eq_true] at hall
    have step : TitleLoop (c :: (cs ++ rest)) acc 0 =
        TitleLoop (cs ++ rest) (acc ++ [LocaleIndependentAsciiToUpper c]) 1 := by
      rw [TitleLoop, if_pos hall.1]
      simp
    rw [List.cons_append, step, titleLoop_word_tail cs hall.2 rest _ 1 (by omega)]
    simp only [TitleCaseWord, List.append_assoc, List.singleton_append, List.length_cons]
    have harith : 1 + cs.length = cs.length + 1 := by omega
    rw [harith]

theorem isSpecialShortWord_length (w : Str) (h : IsSpecialShortWord w = true) : w.length = 2 := by
  unfold IsSpecialShortWord at h
  simp only [Bool.or_eq_true, decide_eq_true_eq] at h
  rcases h with (h | h) | h <;>
    · have hlen := congrArg List.length h
      simpa using hlen

theorem special_cond_iff (a b : Char) (ha : IsAsciiAlpha a = true) :
    ([LocaleIndependentAsciiToUpper a, LocaleIndependentAsciiToLower b] = "Of".toList ∨
     [LocaleIndependentAsciiToUpper a, LocaleIndependentAsciiToLower b] = "Es".toList ∨
     [LocaleIndependentAsciiToUpper a, LocaleIndependentAsciiToLower b] = "Au".toList) ↔
    IsSpecialShortWord [a, b] = true := by
  have hfacts := ascii_case_facts a ha
  have hOf : "Of".toList = ['O', 'f'] := rfl
  have hEs : "Es".toList = ['E', 's'] := rfl
  have hAu : "Au".toList = ['A', 'u'] := rfl
  have hof : "of".toList = ['o', 'f'] := rfl
  have hes : "es".toList = ['e', 's'] := rfl
  have hau : "au".toList = ['a', 'u'] := rfl
  unfold IsSpecialShortWord
  simp only [hOf, hEs, hAu, hof, hes, hau, List.map_cons, List.map_nil, Bool.or_eq_true,
    decide_eq_true_eq, List.cons.injEq, and_true,
    hfacts.2.1, hfacts.2.2.1, hfacts.2.2.2]
  exact or_assoc.symm

theorem specialCase_word (acc w : Str) (hall : w.all IsAsciiAlpha = true) :
    SpecialCaseWord (acc ++ TitleCaseWord w) w.length = acc ++ SpecNonFinalWord w := by
  by_cases hlen : w.length = 2
  · obtain ⟨a, b, rfl⟩ := List.length_eq_two.mp hlen
    simp only [List.all_cons, List.all_nil, Bool.and_eq_true, and_true] at hall
    have ha := hall.1
    have hfacts := ascii_case_facts a ha
    have htcw : TitleCaseWord [a, b] =
        [LocaleIndependentAsciiToUpper a, LocaleIndependentAsciiToLower b] := by
      simp [TitleCaseWord]
    have hlength : (acc ++ [LocaleIndependentAsciiToUpper a,
        LocaleIndependentAsciiToLower b]).length - 2 = acc.length := by
      simp
    have hdrop : ((acc ++ [LocaleIndependentAsciiToUpper a,
        LocaleIndependentAsciiToLower b]).drop acc.length).take 2 =
        [LocaleIndependentAsciiToUpper a, LocaleIndependentAsciiToLower b] := by
      simp
    have hgetD : (acc ++ [LocaleIndependentAsciiToUpper a,
        LocaleIndependentAsciiToLower b]).getD acc.length ' ' =
        LocaleIndependentAsciiToUpper a := by
      rw [List.getD_append_right acc _ ' ' acc.length (by omega)]
      simp
    have hset : (acc ++ [LocaleIndependentAsciiToUpper a, LocaleIndependentAsciiToLower b]).set
        acc.length (LocaleIndependentAsciiToLower (LocaleIndependentAsciiToUpper a)) =
        acc ++ [LocaleIndependentAsciiToLower (LocaleIndependentAsciiToUpper a),
                LocaleIndependentAsciiToLower b] := by
      rw [set_append_length]
      simp [List.set]
    rw [htcw]
    unfold SpecialCaseWord
    rw [if_pos hlen]
    simp only [hlength, hdrop, hgetD, hset]
    by_cases hc : [LocaleIndependentAsciiToUpper a, LocaleIndependentAsciiToLower b] =
        "Of".toList ∨
        [LocaleIndependentAsciiToUpper a, LocaleIndependentAsciiToLower b] = "Es".toList ∨
        [LocaleIndependentAsciiToUpper a, LocaleIndependentAsciiToLower b] = "Au".toList
    · rw [if_pos hc]
      have hspec : IsSpecialShortWord [a, b] = true := (special_cond_iff a b ha).mp hc
      unfold SpecNonFinalWord
      rw [if_pos hspec]
      simp [hfacts.1]
    · rw [if_neg hc]
      have hspec : ¬(IsSpecialShortWord [a, b] = true) := fun hx =>
        hc ((special_cond_iff a b ha).mpr hx)
      unfold SpecNonFinalWord
      rw [if_neg hspec, htcw]
  · unfold SpecialCaseWord
    rw [if_neg hlen]
    unfold SpecNonFinalWord
    have hspec : ¬(IsSpecialShortWord w = true) := by
      intro hcon
      exact hlen (isSpecialShortWord_length w hcon)
    rw [if_neg hspec]

theorem titleLoop_render (tokens : List (Str × Char)) (last : Str) :
    (∀ p ∈ tokens, p.1.all IsAsciiAlpha = true ∧ IsSeparator p.2 = true) →
    last.all IsAsciiAlpha = true →
    ∀ acc, TitleLoop (RenderLocation tokens last) acc 0 =
      some (acc ++ SpecTitleCaseLocation tokens last) := by
  induction tokens with
  | nil =>
    intro _ hlast acc
    rw [RenderLocation, SpecTitleCaseLocation]
    have h := titleLoop_word last hlast [] acc
    rw [List.append_nil] at h
    rw [h, TitleLoop]
  | cons p rest ih =>
    intro htok hlast acc
    obtain ⟨w, s⟩ := p
    have hw := (htok ⟨w, s⟩ (by simp)).1
    have hs := (htok ⟨w, s⟩ (by simp)).2
    rw [RenderLocation, SpecTitleCaseLocation]
    rw [titleLoop_word w hw (s :: RenderLocation rest last) acc]
    have hstep : TitleLoop (s :: RenderLocation rest last) (acc ++ TitleCaseWord w) w.length =
        TitleLoop (RenderLocation rest last)
          (SpecialCaseWord (acc ++ TitleCaseWord w) w.length ++ [s]) 0 := by
      rw [TitleLoop, separator_not_alpha s hs]
      simp only [Bool.false_eq_true, if_false, hs, if_true]
    rw [hstep, specialCase_word acc w hw,
      ih (fun q hq => htok q (List.mem_cons_of_mem _ hq)) hlast (acc ++ SpecNonFinalWord w ++ [s])]
    simp

theorem titleLoop_invalid (input : Str) :
    ∀ c, c ∈ input → IsAsciiAlpha c = false → IsSeparator c = false →
      ∀ acc n, TitleLoop input acc n = none := by
  induction input with
  | nil => intro c hc; simp at hc
  | cons d rest ih =>
    intro c hc halpha hsep acc n
    rcases List.mem_cons.mp hc with rfl | hmem
    · rw [TitleLoop, halpha, hsep]
      simp
    · rw [TitleLoop]
      by_cases hd : IsAsciiAlpha d = true
      · rw [if_pos hd]
        exact ih c hmem halpha hsep _ _
      · rw [if_neg hd]
        by_cases hds : IsSeparator d = true
        · rw [if_pos hds]
          exact ih c hmem halpha hsep _ _
        · rw [if_neg hds]

/-- C4 counterexample: the claim states that every two-letter word equal
case-insensitively to "of", "es" or "au" is fully lowercased, but the code
only applies the special-casing when a separator follows the word: the
final word "au" of "america/au" stays title-cased as "Au". -/
theorem claim_C4_counterexample :
    CanonicalizeTimeZoneID "america/au".toList = "America/Au".toList ∧
    CanonicalizeTimeZoneID "america/au".toList ≠ "America/au".toList := by
  constructor
  · decide
  · decide

/-- C4 (amended): in the titlecase-location grammar, each
separator-delimited word has its first ASCII letter uppercased and the
rest lowercased (ASCII-only); a two-letter word equal case-insensitively
to "of", "es" or "au" is fully lowercased exactly when a separator follows
it (the final word of the input is never special-cased); any character
that is not an ASCII letter or one of the three separators makes the whole
result empty.  Concretely, "america/Of_Something" canonicalizes to
"America/of_Something" and "Europe_5" is invalid. -/
theorem claim_C4_titlecase :
    (∀ (tokens : List (Str × Char)) (last : Str),
      (∀ p ∈ tokens, p.1.all IsAsciiAlpha = true ∧ IsSeparator p.2 = true) →
      last.all IsAsciiAlpha = true →
      ToTitleCaseTimezoneLocation (RenderLocation tokens last) =
        SpecTitleCaseLocation tokens last) ∧
    (∀ (input : Str) (c : Char), c ∈ input → IsAsciiAlpha c = false →
      IsSeparator c = false → ToTitleCaseTimezoneLocation input = []) ∧
    CanonicalizeTimeZoneID "america/Of_Something".toList = "America/of_Something".toList ∧
    CanonicalizeTimeZoneID "bueNos_airES".toList = "Buenos_Aires".toList ∧
    CanonicalizeTimeZoneID "ho_cHi_minH".toList = "Ho_Chi_Minh".toList ∧
    CanonicalizeTimeZoneID "Europe_5".toList = [] := by
  refine ⟨?_, ?_, by decide, by decide, by decide, by decide⟩
  · intro tokens last htok hlast
    unfold ToTitleCaseTimezoneLocation
    rw [titleLoop_render tokens last htok hlast []]
    simp
  · intro input c hc halpha hsep
    unfold ToTitleCaseTimezoneLocation
    rw [titleLoop_invalid input c hc halpha hsep [] 0]
    rfl

/-- Witness for C4 at concrete inputs: the word decomposition
`[("america", '/')]` with final word "au" renders back to "america/au" and
is title-cased to "America/Au" (final special word kept title-cased), and
"Europe_5" contains the invalid character '5' and is rejected. -/
theorem claim_C4_witness :
    ToTitleCaseTimezoneLocation (RenderLocation [("america".toList, '/')] "au".toList) =
      SpecTitleCaseLocation [("america".toList, '/')] "au".toList ∧
    SpecTitleCaseLocation [("america".toList, '/')] "au".toList = "America/Au".toList ∧
    ToTitleCaseTimezoneLocation "Europe_5".toList = [] := by
  refine ⟨claim_C4_titlecase.1 [("america".toList, '/')] "au".toList ?_ ?_, by decide, ?_⟩
  · intro p hp
    simp only [List.mem_singleton] at hp
    subst hp
    constructor
    · decide
    · decide
  · decide
  · exact claim_C4_titlecase.2.1 "Europe_5".toList '5' (by decide) (by decide) (by decide)

/-! ## Option bags (JavaScript objects with a prototype chain) -/

/-- A JavaScript option value: the claims only need booleans and strings;
`GetBoolOption` coerces via ToBoolean, `GetStringOption` via ToString. -/
inductive OptVal
  | vBool : Bool → OptVal
  | vStr : String → OptVal
deriving DecidableEq

/-- One object's own properties. -/
abbrev OptionsFrame := List (String × OptVal)

/-- An object as its prototype chain: own properties first. -/
abbrev OptionsChain := List OptionsFrame

/-- Property lookup through the prototype chain
(source `Object::GetPropertyOrElement`). -/
def GetPropertyOrElement : OptionsChain → String → Option OptVal
  | [], _ => none
  | f :: rest, p =>
    match f.lookup p with
    | some v => some v
    | none => GetPropertyOrElement rest p

/-- Source `IsPropertyUndefined`: the property reads as undefined. -/
def IsPropertyUndefined (chain : OptionsChain) (p : String) : Bool :=
  (GetPropertyOrElement chain p).isNone

/-- Source `NeedsDefault`: true iff every listed property is undefined. -/
def NeedsDefault (chain : OptionsChain) (props : List String) : Bool :=
  props.all (fun p => IsPropertyUndefined chain p)

/-- `CreateDataProperty` on an own-properties frame: replace an existing
binding or append a new one. -/
def SetDataProperty : OptionsFrame → String → OptVal → OptionsFrame
  | [], k, v => [(k, v)]
  | (k0, v0) :: rest, k, v =>
    if k0 = k then (k, v) :: rest else (k0, v0) :: SetDataProperty rest k v

/-- Source `CreateDefault`: set every listed property to "numeric" on the
receiver's own frame. -/
def CreateDefault (chain : OptionsChain) (props : List String) : OptionsChain :=
  match chain with
  | [] => [props.foldl (fun f p => SetDataProperty f p (OptVal.vStr "numeric")) []]
  | own :: rest =>
    (props.foldl (fun f p => SetDataProperty f p (OptVal.vStr "numeric")) own) :: rest

inductive RequiredOption
  | kDate
  | kTime
  | kAny
deriving DecidableEq

inductive DefaultsOption
  | kDate
  | kTime
  | kAll
deriving DecidableEq

/-- Step 1-2 of `ToDateTimeOptions`: undefined becomes a fresh
null-prototype object, anything else a fresh object inheriting from the
input (`ObjectCreate(options)`). -/
def ToDateTimeOptionsView (input : Option OptionsChain) : OptionsChain :=
  match input with
  | none => [[]]
  | some chain => [] :: chain

/-- Steps 3-5 of `ToDateTimeOptions`: `needs_default` starts true, is
overwritten by the date-field check for required date/any, and conjoined
with the time-field check for required time/any. -/
def NeedsDefaultValue (options : OptionsChain) (required : RequiredOption) : Bool :=
  let nd1 := if required = .kAny ∨ required = .kDate then
      NeedsDefault options ["weekday", "year", "month", "day"]
    else true
  if required = .kAny ∨ required = .kTime then
    nd1 && NeedsDefault options ["hour", "minute", "second"]
  else nd1

/-- Embeds `JSDateTimeFormat::ToDateTimeOptions`. -/
def ToDateTimeOptions (input : Option OptionsChain) (required : RequiredOption)
    (defaults : DefaultsOption) : OptionsChain :=
  let options := ToDateTimeOptionsView input
  if NeedsDefaultValue options required then
    let options2 := if defaults = .kAll ∨ defaults = .kDate then
        CreateDefault options ["year", "month", "day"]
      else options
    if defaults = .kAll ∨ defaults = .kTime then
      CreateDefault options2 ["hour", "minute", "second"]
    else options2
  else options

/-- C5: `needsDefault` is true iff all date fields are absent when
required is date/any, conjoined with all time fields absent when required
is time/any; when it holds and defaults is date/all, year, month and day
become "numeric" on a fresh object inheriting from the caller's options
(which are never mutated); `resolveDefaults(undefined, any, date)` yields
year/month/day = "numeric" with no time fields. -/
theorem claim_C5_to_date_time_options :
    (∀ (options : OptionsChain) (required : RequiredOption),
      NeedsDefaultValue options required =
        ((if required = .kDate ∨ required = .kAny then
            NeedsDefault options ["weekday", "year", "month", "day"]
          else true) &&
         (if required = .kTime ∨ required = .kAny then
            NeedsDefault options ["hour", "minute", "second"]
          else true))) ∧
    (∀ (chain : OptionsChain) (required : RequiredOption) (defaults : DefaultsOption),
      ∃ own : OptionsFrame,
        ToDateTimeOptions (some chain) required defaults = own :: chain) ∧
    (∀ (input : Option OptionsChain) (required : RequiredOption) (defaults : DefaultsOption),
      NeedsDefaultValue (ToDateTimeOptionsView input) required = true →
      defaults = .kDate ∨ defaults = .kAll →
      GetPropertyOrElement (ToDateTimeOptions input required defaults) "year" =
          some (OptVal.vStr "numeric") ∧
        GetPropertyOrElement (ToDateTimeOptions input required defaults) "month" =
          some (OptVal.vStr "numeric") ∧
        GetPropertyOrElement (ToDateTimeOptions input required defaults) "day" =
          some (OptVal.vStr "numeric")) ∧
    (ToDateTimeOptions none .kAny .kDate =
       [[("year", OptVal.vStr "numeric"), ("month", OptVal.vStr "numeric"),
         ("day", OptVal.vStr "numeric")]] ∧
     GetPropertyOrElement (ToDateTimeOptions none .kAny .kDate) "hour" = none ∧
     GetPropertyOrElement (ToDateTimeOptions none .kAny .kDate) "minute" = none ∧
     GetPropertyOrElement (ToDateTimeOptions none .kAny .kDate) "second" = none ∧
     GetPropertyOrElement (ToDateTimeOptions none .kAny .kDate) "weekday" = none) := by
  refine ⟨?_, ?_, ?_, by decide, by decide, by decide, by decide, by decide⟩
  · intro options required
    cases required <;> simp [NeedsDefaultValue]
  · intro chain required defaults
    unfold ToDateTimeOptions ToDateTimeOptionsView
    by_cases hnd : NeedsDefaultValue ([] :: chain) required = true
    · rw [if_pos hnd]
      by_cases hd : defaults = DefaultsOption.kAll ∨ defaults = DefaultsOption.kDate <;>
        by_cases ht : defaults = DefaultsOption.kAll ∨ defaults = DefaultsOption.kTime <;>
          simp only [hd, ht, if_pos, if_neg, if_true, if_false, CreateDefault] <;>
            exact ⟨_, rfl⟩
    · rw [if_neg hnd]
      exact ⟨[], rfl⟩
  · intro input required defaults hnd hdef
    unfold ToDateTimeOptions
    rw [if_pos hnd]
    have hdate : (defaults = DefaultsOption.kAll ∨ defaults = DefaultsOption.kDate) := hdef.symm
    rw [if_pos hdate]
    rcases hdef with rfl | rfl
    · have hnotime : ¬(DefaultsOption.kDate = DefaultsOption.kAll ∨
          DefaultsOption.kDate = DefaultsOption.kTime) := by decide
      rw [if_neg hnotime]
      cases input <;> exact ⟨rfl, rfl, rfl⟩
    · have htime : (DefaultsOption.kAll = DefaultsOption.kAll ∨
          DefaultsOption.kAll = DefaultsOption.kTime) := by decide
      rw [if_pos htime]
      cases input <;> exact ⟨rfl, rfl, rfl⟩

/-- Witness for C5: a caller options object carrying only an unrelated
property needs defaults, and with defaults = date the fresh view reports
year, month and day as "numeric". -/
theorem claim_C5_witness :
    GetPropertyOrElement
        (ToDateTimeOptions (some [[("foo", OptVal.vStr "bar")]]) .kAny .kDate) "year" =
      some (OptVal.vStr "numeric") ∧
    (∃ own : OptionsFrame,
      ToDateTimeOptions (some [[("foo", OptVal.vStr "bar")]]) .kAny .kDate =
        own :: [[("foo", OptVal.vStr "bar")]]) := by
  constructor
  · exact (claim_C5_to_date_time_options.2.2.1
      (some [[("foo", OptVal.vStr "bar")]]) .kAny .kDate (by decide) (by decide)).1
  · exact claim_C5_to_date_time_options.2.1 [[("foo", OptVal.vStr "bar")]] .kAny .kDate

/-! ## Pattern tables (source `PatternItem`, `GetPatternItems`) -/

/-- One (token, value) pair of a field's table (source `PatternMap`). -/
structure PatternMapEntry where
  pattern : String
  value : String
deriving DecidableEq

/-- One field row (source `PatternItem`): property name, ordered pair
list, allowed values. -/
structure PatternItem where
  property : String
  pairs : List PatternMapEntry
  allowed : List String
deriving DecidableEq

/-- Source `GetPatternItems`, transcribed verbatim. -/
def GetPatternItems : List PatternItem :=
  [⟨"weekday",
    [⟨"EEEEE", "narrow"⟩, ⟨"EEEE", "long"⟩, ⟨"EEE", "short"⟩,
     ⟨"ccccc", "narrow"⟩, ⟨"cccc", "long"⟩, ⟨"ccc", "short"⟩],
    ["narrow", "long", "short"]⟩,
   ⟨"era",
    [⟨"GGGGG", "narrow"⟩, ⟨"GGGG", "long"⟩, ⟨"GGG", "short"⟩],
    ["narrow", "long", "short"]⟩,
   ⟨"year", [⟨"yy", "2-digit"⟩, ⟨"y", "numeric"⟩], ["2-digit", "numeric"]⟩,
   ⟨"month",
    [⟨"MMMMM", "narrow"⟩, ⟨"MMMM", "long"⟩, ⟨"MMM", "short"⟩, ⟨"MM", "2-digit"⟩,
     ⟨"M", "numeric"⟩, ⟨"LLLLL", "narrow"⟩, ⟨"LLLL", "long"⟩, ⟨"LLL", "short"⟩,
     ⟨"LL", "2-digit"⟩, ⟨"L", "numeric"⟩],
    ["narrow", "long", "short", "2-digit", "numeric"]⟩,
   ⟨"day", [⟨"dd", "2-digit"⟩, ⟨"d", "numeric"⟩], ["2-digit", "numeric"]⟩,
   ⟨"hour",
    [⟨"HH", "2-digit"⟩, ⟨"H", "numeric"⟩, ⟨"hh", "2-digit"⟩, ⟨"h", "numeric"⟩,
     ⟨"kk", "2-digit"⟩, ⟨"k", "numeric"⟩, ⟨"KK", "2-digit"⟩, ⟨"K", "numeric"⟩],
    ["2-digit", "numeric"]⟩,
   ⟨"minute", [⟨"mm", "2-digit"⟩, ⟨"m", "numeric"⟩], ["2-digit", "numeric"]⟩,
   ⟨"second", [⟨"ss", "2-digit"⟩, ⟨"s", "numeric"⟩], ["2-digit", "numeric"]⟩,
   ⟨"timeZoneName", [⟨"zzzz", "long"⟩, ⟨"z", "short"⟩], ["long", "short"]⟩]

/-- `std::string::find(needle) != npos` on the embedded strings. -/
def ContainsSubstr : Str → Str → Bool
  | [], needle => needle.isPrefixOf []
  | c :: t, needle => needle.isPrefixOf (c :: t) || ContainsSubstr t needle

/-- The inner loop of the field reconstruction in `ResolvedOptions`: scan
the pairs in listed order and return the value of the first token found in
the pattern (the `break` stops the scan). -/
def ScanPairs (pattern : Str) : List PatternMapEntry → Option String
  | [] => none
  | p :: rest =>
    if ContainsSubstr pattern p.pattern.toList then some p.value
    else ScanPairs pattern rest

/-- The field-reconstruction loop of `ResolvedOptions`: items in fixed
declaration order, one reported value per matched field. -/
def ReverseMapFields (pattern : Str) : List (String × String) :=
  GetPatternItems.filterMap
    (fun item => (ScanPairs pattern item.pairs).map (fun v => (item.property, v)))

/-- The claim's literal reading of "ordered longest-token-first":
non-increasing token lengths along the pair list. -/
def PairsLongestFirst : List PatternMapEntry → Bool
  | [] => true
  | [_] => true
  | p :: q :: rest =>
    (q.pattern.length ≤ p.pattern.length : Bool) && PairsLongestFirst (q :: rest)

/-- The ordering invariant the table actually satisfies and that the
first-match scan relies on: no token is preceded by a token that occurs
inside it as a substring. -/
def NoEarlierTokenInsideLater : List PatternMapEntry → Bool
  | [] => true
  | p :: rest =>
    rest.all (fun q => !(ContainsSubstr q.pattern.toList p.pattern.toList)) &&
      NoEarlierTokenInsideLater rest

/-- C7 counterexample: the pair lists are not ordered longest-token-first
as literally stated: in the weekday row the length-3 token "EEE" precedes
the length-5 token "ccccc" (and similarly for month and hour). -/
theorem claim_C7_counterexample :
    PairsLongestFirst
      ((GetPatternItems.getD 0 ⟨"", [], []⟩).pairs) = false ∧
    GetPatternItems.all (fun item => PairsLongestFirst item.pairs) = false := by
  constructor
  · decide
  · decide

theorem scanPairs_eq_some_iff (pattern : Str) (pairs : List PatternMapEntry) (v : String) :
    ScanPairs pattern pairs = some v ↔
    ∃ k, ∃ hk : k < pairs.length,
      (pairs.get ⟨k, hk⟩).value = v ∧
      ContainsSubstr pattern (pairs.get ⟨k, hk⟩).pattern.toList = true ∧
      ∀ m, ∀ hm : m < k,
        ContainsSubstr pattern ((pairs.get ⟨m, Nat.lt_trans hm hk⟩).pattern.toList) = false := by
  induction pairs with
  | nil => simp [ScanPairs]
  | cons p rest ih =>
    cases hc : ContainsSubstr pattern p.pattern.toList with
    | true =>
      rw [ScanPairs, if_pos hc]
      constructor
      · intro hv
        refine ⟨0, by simp, Option.some_inj.mp hv, hc, ?_⟩
        intro m hm
        exact absurd hm (Nat.not_lt_zero m)
      · rintro ⟨k, hk, hval, hcont, hmin⟩
        cases k with
        | zero => exact congrArg some hval
        | succ k0 =>
          have hfalse : ContainsSubstr pattern p.pattern.toList = false :=
            hmin 0 (Nat.succ_pos k0)
          rw [hc] at hfalse
          exact Bool.noConfusion hfalse
    | false =>
      have hc' : ¬(ContainsSubstr pattern p.pattern.toList = true) := by
        rw [hc]
        exact Bool.false_ne_true
      rw [ScanPairs, if_neg hc', ih]
      constructor
      · rintro ⟨k, hk, hval, hcont, hmin⟩
        refine ⟨k + 1, Nat.succ_lt_succ hk, hval, hcont, ?_⟩
        intro m hm
        cases m with
        | zero => exact hc
        | succ m0 => exact hmin m0 (Nat.lt_of_succ_lt_succ hm)
      · rintro ⟨k, hk, hval, hcont, hmin⟩
        cases k with
        | zero =>
          have hcont' : ContainsSubstr pattern p.pattern.toList = true := hcont
          rw [hc] at hcont'
          exact Bool.noConfusion hcont' 
        | succ k0 =>
          exact ⟨k0, Nat.lt_of_succ_lt_succ hk, hval, hcont,
            fun m hm => hmin (m + 1) (Nat.succ_lt_succ hm)⟩

theorem filterMap_keys_sublist (f : PatternItem → Option String) (l : List PatternItem) :
    List.Sublist
      ((l.filterMap (fun item => (f item).map (fun v => (item.property, v)))).map Prod.fst)
      (l.map PatternItem.property) := by
  induction l with
  | nil => simp
  | cons it rest ih =>
    cases hf : f it with
    | none =>
      simp only [List.filterMap_cons, hf, Option.map_none', List.map_cons]
      exact ih.cons it.property
    | some v =>
      simp only [List.filterMap_cons, hf, Option.map_some', List.map_cons]
      exact ih.cons₂ it.property

/-- C7 (amended): the pair lists are ordered so that no token is preceded
by a token occurring inside it as a substring (longest-first within each
token family), which is the ordering the first-match scan depends on; the
field reconstruction scans each field's pairs in listed order and reports
the value of the first token occurring in the pattern, stopping that
field's scan at the first match; fields are visited in the fixed
declaration order weekday, era, year, month, day, hour, minute, second,
timeZoneName. -/
theorem claim_C7_reverse_map :
    GetPatternItems.all (fun item => NoEarlierTokenInsideLater item.pairs) = true ∧
    (∀ (pattern : Str) (pairs : List PatternMapEntry) (v : String),
      ScanPairs pattern pairs = some v ↔
      ∃ k, ∃ hk : k < pairs.length,
        (pairs.get ⟨k, hk⟩).value = v ∧
        ContainsSubstr pattern (pairs.get ⟨k, hk⟩).pattern.toList = true ∧
        ∀ m, ∀ hm : m < k,
          ContainsSubstr pattern ((pairs.get ⟨m, Nat.lt_trans hm hk⟩).pattern.toList) = false) ∧
    (∀ pattern : Str,
      List.Sublist ((ReverseMapFields pattern).map Prod.fst)
        (GetPatternItems.map PatternItem.property)) ∧
    (∀ (pattern : Str) (item : PatternItem) (v : String), item ∈ GetPatternItems →
      ScanPairs pattern item.pairs = some v → (item.property, v) ∈ ReverseMapFields pattern) := by
  refine ⟨by decide, scanPairs_eq_some_iff, ?_, ?_⟩
  · intro pattern
    exact filterMap_keys_sublist (fun item => ScanPairs pattern item.pairs) GetPatternItems
  · intro pattern item v hmem hscan
    unfold ReverseMapFields
    exact List.mem_filterMap.mpr ⟨item, hmem, by rw [hscan]; rfl⟩

/-- Witness for C7 on the concrete pattern "yMd": the year row matches its
second token "y" (the first, "yy", does not occur), so resolvedOptions
reports year = "numeric". -/
theorem claim_C7_witness :
    ("year", "numeric") ∈ ReverseMapFields "yMd".toList ∧
    ScanPairs "yMd".toList [⟨"yy", "2-digit"⟩, ⟨"y", "numeric"⟩] = some "numeric" := by
  constructor
  · exact claim_C7_reverse_map.2.2.2 "yMd".toList
      ⟨"year", [⟨"yy", "2-digit"⟩, ⟨"y", "numeric"⟩], ["2-digit", "numeric"]⟩ "numeric"
      (by decide) (by decide)
  · decide

/-! ## FormatToParts (source `JSDateTimeFormat::FormatToParts`) -/

/-- The ICU date field identifiers that can occur in a formatted result
(source `IcuDateFieldIdToDateType`; any other id is unreachable because no
option of the formatter can request it). -/
inductive IcuField
  | year
  | extendedYear
  | yearName
  | month
  | standaloneMonth
  | date
  | hourOfDay1
  | hourOfDay0
  | hour1
  | hour0
  | minute
  | second
  | dayOfWeek
  | dowLocal
  | standaloneDay
  | amPm
  | timezone
  | timezoneRFC
  | timezoneGeneric
  | timezoneSpecial
  | timezoneLocalizedGMTOffset
  | timezoneISO
  | timezoneISOLocal
  | era
deriving DecidableEq

/-- Source `IcuDateFieldIdToDateType` for real fields; the literal case
(field id -1) is emitted directly by the loop below. -/
def IcuDateFieldIdToDateType : IcuField → String
  | .year => "year"
  | .extendedYear => "year"
  | .yearName => "year"
  | .month => "month"
  | .standaloneMonth => "month"
  | .date => "day"
  | .hourOfDay1 => "hour"
  | .hourOfDay0 => "hour"
  | .hour1 => "hour"
  | .hour0 => "hour"
  | .minute => "minute"
  | .second => "second"
  | .dayOfWeek => "weekday"
  | .dowLocal => "weekday"
  | .standaloneDay => "weekday"
  | .amPm => "dayPeriod"
  | .timezone => "timeZoneName"
  | .timezoneRFC => "timeZoneName"
  | .timezoneGeneric => "timeZoneName"
  | .timezoneSpecial => "timeZoneName"
  | .timezoneLocalizedGMTOffset => "timeZoneName"
  | .timezoneISO => "timeZoneName"
  | .timezoneISOLocal => "timeZoneName"
  | .era => "era"

/-- One field position span produced by the format engine. -/
structure FieldSpan where
  beginPos : Nat
  endPos : Nat
  fieldId : IcuField
deriving DecidableEq

/-- One tagged part of the output. -/
structure FormattedPart where
  partType : String
  text : Str
deriving DecidableEq

/-- `Intl::ToString(isolate, formatted, begin, end)`: the substring
`[a, b)` of the formatted string. -/
def ExtractRange (f : Str) (a b : Nat) : Str := (f.drop a).take (b - a)

/-- The span walk of `FormatToParts`: a literal part before each span
when `previous_end_pos < begin_pos`, the span's own part, and a trailing
literal part after the loop when `previous_end_pos < length`. -/
def PartsLoop (f : Str) : List FieldSpan → Nat → List FormattedPart
  | [], prev =>
    if prev < f.length then [⟨"literal", ExtractRange f prev f.length⟩] else []
  | sp :: rest, prev =>
    (if prev < sp.beginPos then [⟨"literal", ExtractRange f prev sp.beginPos⟩] else []) ++
      ⟨IcuDateFieldIdToDateType sp.fieldId, ExtractRange f sp.beginPos sp.endPos⟩ ::
        PartsLoop f rest sp.endPos

/-- Embeds `JSDateTimeFormat::FormatToParts` on an already formatted
string and its field spans: `if (length == 0) return result;` yields the
empty part list, otherwise the span walk starting at 0. -/
def FormatToPartsList (f : Str) (spans : List FieldSpan) : List FormattedPart :=
  if f.length = 0 then [] else PartsLoop f spans 0

/-- The index ranges of the emitted parts, in emission order. -/
def PartSpansLoop (f : Str) : List FieldSpan → Nat → List (Nat × Nat)
  | [], prev => if prev < f.length then [(prev, f.length)] else []
  | sp :: rest, prev =>
    (if prev < sp.beginPos then [(prev, sp.beginPos)] else []) ++
      (sp.beginPos, sp.endPos) :: PartSpansLoop f rest sp.endPos

/-- Index ranges of the parts of `FormatToPartsList`. -/
def PartSpans (f : Str) (spans : List FieldSpan) : List (Nat × Nat) :=
  if f.length = 0 then [] else PartSpansLoop f spans 0

/-- The hypotheses of the parts-mapper contract: spans sorted by begin
index, non-overlapping, and within the bounds of the formatted string. -/
def WellFormedSpans (len : Nat) : Nat → List FieldSpan → Bool
  | _, [] => true
  | prev, sp :: rest =>
    decide (prev ≤ sp.beginPos) && decide (sp.beginPos ≤ sp.endPos) &&
      decide (sp.endPos ≤ len) && WellFormedSpans len sp.endPos rest

/-- A list of index ranges tiles `[s, e)` exactly: each range starts where
the previous one ended, with no gaps and no overlaps. -/
def TilesSpans : Nat → Nat → List (Nat × Nat) → Bool
  | s, e, [] => decide (s = e)
  | s, e, (a, b) :: rest => decide (s = a) && decide (a ≤ b) && TilesSpans b e rest

theorem extractRange_append_drop (f : Str) (a b : Nat) (hab : a ≤ b) :
    ExtractRange f a b ++ f.drop b = f.drop a := by
  unfold ExtractRange
  have h1 : f.drop b = (f.drop a).drop (b - a) := by
    rw [List.drop_drop]
    congr 1
    omega
  rw [h1, List.take_append_drop]

theorem extractRange_refl (f : Str) (a : Nat) : ExtractRange f a a = [] := by
  unfold ExtractRange
  simp

theorem extractRange_to_length (f : Str) (a : Nat) :
    ExtractRange f a f.length = f.drop a := by
  unfold ExtractRange
  rw [← List.length_drop]
  exact List.take_length (f.drop a)

theorem tilesSpans_nil (s e : Nat) : TilesSpans s e [] = decide (s = e) := rfl

theorem tilesSpans_cons (s e a b : Nat) (rest : List (Nat × Nat)) :
    TilesSpans s e ((a, b) :: rest) =
      (decide (s = a) && decide (a ≤ b) && TilesSpans b e rest) := rfl

theorem partsLoop_concat (f : Str) (spans : List FieldSpan) :
    ∀ prev, WellFormedSpans f.length prev spans = true → prev ≤ f.length →
      ((PartsLoop f spans prev).map FormattedPart.text).flatten = f.drop prev := by
  induction spans with
  | nil =>
    intro prev _ hle
    rw [PartsLoop]
    by_cases hlt : prev < f.length
    · rw [if_pos hlt]
      simp [extractRange_to_length]
    · rw [if_neg hlt]
      have heq : prev = f.length := by omega
      subst heq
      simp [List.drop_length]
  | cons sp rest ih =>
    intro prev hwf hle
    unfold WellFormedSpans at hwf
    simp only [Bool.and_eq_true, decide_eq_true_eq] at hwf
    obtain ⟨⟨⟨h1, h2⟩, h3⟩, h4⟩ := hwf
    rw [PartsLoop]
    have hrest := ih sp.endPos h4 h3
    by_cases hlt : prev < sp.beginPos
    · rw [if_pos hlt]
      simp only [List.map_append, List.map_cons, List.flatten_append, List.flatten_cons,
        List.map_nil, List.flatten_nil, List.append_nil, List.append_assoc]
      rw [hrest, extractRange_append_drop f sp.beginPos sp.endPos h2,
        extractRange_append_drop f prev sp.beginPos h1]
    · rw [if_neg hlt]
      have heq : prev = sp.beginPos := by omega
      subst heq
      simp only [List.nil_append, List.map_cons, List.flatten_cons]
      rw [hrest, extractRange_append_drop f sp.beginPos sp.endPos h2]

theorem partSpansLoop_tiles (f : Str) (spans : List FieldSpan) :
    ∀ prev, WellFormedSpans f.length prev spans = true → prev ≤ f.length →
      TilesSpans prev f.length (PartSpansLoop f spans prev) = true := by
  induction spans with
  | nil =>
    intro prev _ hle
    rw [PartSpansLoop]
    by_cases hlt : prev < f.length
    · rw [if_pos hlt, tilesSpans_cons, tilesSpans_nil]
      simp only [Bool.and_eq_true, decide_eq_true_eq]
      exact ⟨⟨trivial, by omega⟩, trivial⟩
    · rw [if_neg hlt, tilesSpans_nil]
      simp only [decide_eq_true_eq]
      omega
  | cons sp rest ih =>
    intro prev hwf hle
    unfold WellFormedSpans at hwf
    simp only [Bool.and_eq_true, decide_eq_true_eq] at hwf
    obtain ⟨⟨⟨h1, h2⟩, h3⟩, h4⟩ := hwf
    rw [PartSpansLoop]
    have hrest := ih sp.endPos h4 h3
    by_cases hlt : prev < sp.beginPos
    · rw [if_pos hlt, List.singleton_append, tilesSpans_cons, tilesSpans_cons]
      simp only [Bool.and_eq_true, decide_eq_true_eq]
      exact ⟨⟨trivial, by omega⟩, ⟨trivial, h2⟩, hrest⟩
    · rw [if_neg hlt]
      have heq : prev = sp.beginPos := by omega
      subst heq
      rw [List.nil_append, tilesSpans_cons]
      simp only [Bool.and_eq_true, decide_eq_true_eq]
      exact ⟨⟨trivial, h2⟩, hrest⟩

theorem partsLoop_texts (f : Str) (spans : List FieldSpan) :
    ∀ prev, (PartsLoop f spans prev).map FormattedPart.text =
      (PartSpansLoop f spans prev).map (fun ab => ExtractRange f ab.1 ab.2) := by
  induction spans with
  | nil =>
    intro prev
    rw [PartsLoop, PartSpansLoop]
    by_cases hlt : prev < f.length
    · rw [if_pos hlt, if_pos hlt]
      rfl
    · rw [if_neg hlt, if_neg hlt]
      rfl
  | cons sp rest ih =>
    intro prev
    rw [PartsLoop, PartSpansLoop]
    by_cases hlt : prev < sp.beginPos
    · rw [if_pos hlt, if_pos hlt]
      simp only [List.map_append, List.map_cons]
      rw [ih sp.endPos]
      rfl
    · rw [if_neg hlt, if_neg hlt]
      simp only [List.nil_append, List.map_cons]
      rw [ih sp.endPos]

/-- C1: whenever the engine's field spans are sorted by begin index,
non-overlapping and within bounds, the parts of `formatToParts`
concatenate in order to exactly the formatted string (literal parts
filling every gap before a span and after the last span), the parts tile
`[0, length)` with no gaps and no overlaps, and an empty formatted string
yields an empty part list. -/
theorem claim_C1_parts_tile (f : Str) (spans : List FieldSpan)
    (hwf : WellFormedSpans f.length 0 spans = true) :
    ((FormatToPartsList f spans).map FormattedPart.text).flatten = f ∧
    TilesSpans 0 f.length (PartSpans f spans) = true ∧
    (f = [] → FormatToPartsList f spans = []) ∧
    (FormatToPartsList f spans).map FormattedPart.text =
      (PartSpans f spans).map (fun ab => ExtractRange f ab.1 ab.2) := by
  unfold FormatToPartsList PartSpans
  by_cases hlen : f.length = 0
  · rw [if_pos hlen, if_pos hlen]
    have hf : f = [] := List.length_eq_zero.mp hlen
    subst hf
    exact ⟨rfl, rfl, fun _ => rfl, rfl⟩
  · rw [if_neg hlen, if_neg hlen]
    refine ⟨?_, ?_, ?_, partsLoop_texts f spans 0⟩
    · have h := partsLoop_concat f spans 0 hwf (Nat.zero_le _)
      rw [h, List.drop_zero]
    · exact partSpansLoop_tiles f spans 0 hwf (Nat.zero_le _)
    · intro hf
      subst hf
      simp at hlen

/-- Witness for C1 on the formatted string "12:34 PM" with spans for
hour, minute and dayPeriod: the parts concatenate back to the string and
tile its index range. -/
theorem claim_C1_witness :
    WellFormedSpans ("12:34 PM".toList).length 0
      [⟨0, 2, .hour0⟩, ⟨3, 5, .minute⟩, ⟨6, 8, .amPm⟩] = true ∧
    ((FormatToPartsList "12:34 PM".toList
        [⟨0, 2, .hour0⟩, ⟨3, 5, .minute⟩, ⟨6, 8, .amPm⟩]).map FormattedPart.text).flatten =
      "12:34 PM".toList ∧
    TilesSpans 0 ("12:34 PM".toList).length
      (PartSpans "12:34 PM".toList [⟨0, 2, .hour0⟩, ⟨3, 5, .minute⟩, ⟨6, 8, .amPm⟩]) = true := by
  refine ⟨by decide, ?_, ?_⟩
  · exact (claim_C1_parts_tile "12:34 PM".toList
      [⟨0, 2, .hour0⟩, ⟨3, 5, .minute⟩, ⟨6, 8, .amPm⟩] (by decide)).1
  · exact (claim_C1_parts_tile "12:34 PM".toList
      [⟨0, 2, .hour0⟩, ⟨3, 5, .minute⟩, ⟨6, 8, .amPm⟩] (by decide)).2.1

/-! ## Hour cycles, errors and option getters -/

/-- Source `Intl::HourCycle`. -/
inductive HourCycle
  | kUndefined
  | kH11
  | kH12
  | kH23
  | kH24
deriving DecidableEq

/-- The error kinds surfaced by this core. -/
inductive IntlError
  | kInvalidOptionValue
  | kInvalidTimeZone
  | kInvalidTimeValue
  | kWrongReceiver
  | kIcuError
deriving DecidableEq

/-- JavaScript ToBoolean on an option value (strings: nonempty is true). -/
def ToBooleanVal : OptVal → Bool
  | .vBool b => b
  | .vStr s => decide (s ≠ "")

/-- JavaScript ToString on an option value. -/
def ToStringVal : OptVal → String
  | .vBool b => if b then "true" else "false"
  | .vStr s => s

/-- Source `Intl::GetBoolOption`: undefined stays undefined, any present
value is coerced; this getter never fails. -/
def GetBoolOption (chain : OptionsChain) (prop : String) : Option Bool :=
  (GetPropertyOrElement chain prop).map ToBooleanVal

/-- Source `Intl::GetStringOption`: undefined stays undefined; a present
value is coerced to string and, when an allowed-values list is given,
rejected with InvalidOptionValue if not in it. -/
def GetStringOption (chain : OptionsChain) (prop : String) (values : List String) :
    Except IntlError (Option String) :=
  match GetPropertyOrElement chain prop with
  | none => .ok none
  | some v =>
    if values = [] ∨ values.contains (ToStringVal v) then .ok (some (ToStringVal v))
    else .error .kInvalidOptionValue

/-- Source `Intl::ToHourCycle` string decoding. -/
def ToHourCycle (s : String) : HourCycle :=
  if s = "h11" then .kH11
  else if s = "h12" then .kH12
  else if s = "h23" then .kH23
  else if s = "h24" then .kH24
  else .kUndefined

/-- Source `Intl::GetHourCycle`: the "hourCycle" option restricted to
h11/h12/h23/h24. -/
def GetHourCycle (chain : OptionsChain) : Except IntlError HourCycle :=
  match GetStringOption chain "hourCycle" ["h11", "h12", "h23", "h24"] with
  | .error e => .error e
  | .ok none => .ok .kUndefined
  | .ok (some s) => .ok (ToHourCycle s)

/-! ## Pattern data for skeleton building (source `PatternData`, `GetPatternData`) -/

/-- Source `PatternData`: like `PatternItem` but with the value-to-token
map; the C++ `std::map` keeps the first inserted binding per value, which
a first-match scan over the pair list reproduces. -/
structure PatternData where
  property : String
  pairs : List PatternMapEntry
  allowed : List String
deriving DecidableEq

/-- `item.map.find(value)->second`: the token of the first pair carrying
the requested value. -/
def PatternDataMapFind (pairs : List PatternMapEntry) (v : String) : String :=
  ((pairs.find? (fun p => p.value = v)).map (fun p => p.pattern)).getD ""

/-- Source `CreateCommonData`: the shared rows with the hour row replaced. -/
def CreateCommonData (hourData : PatternData) : List PatternData :=
  GetPatternItems.map (fun item =>
    if item.property = "hour" then hourData
    else ⟨item.property, item.pairs, item.allowed⟩)

/-- Source `CreateData`. -/
def CreateData (digit2 numeric : String) : List PatternData :=
  CreateCommonData ⟨"hour", [⟨digit2, "2-digit"⟩, ⟨numeric, "numeric"⟩], ["2-digit", "numeric"]⟩

/-- Source `GetPatternData`: hour tokens selected by hour cycle
(h11 uses K/KK, h12 h/hh, h23 H/HH, h24 k/kk, undefined the locale
default j/jj). -/
def GetPatternData : HourCycle → List PatternData
  | .kH11 => CreateData "KK" "K"
  | .kH12 => CreateData "hh" "h"
  | .kH23 => CreateData "HH" "H"
  | .kH24 => CreateData "kk" "k"
  | .kUndefined => CreateData "jj" "j"

/-- Source `HourCycleDefault`: which of K/h/H/k occurs in the generated
pattern, checked in that priority order. -/
def HourCycleDefault (pattern : Str) : HourCycle :=
  if pattern.contains 'K' then .kH11
  else if pattern.contains 'h' then .kH12
  else if pattern.contains 'H' then .kH23
  else if pattern.contains 'k' then .kH24
  else .kUndefined

/-! ## The format engine boundary and the resolved configuration -/

/-- The external format engine (ICU and the locale database), abstracted
as total functions per the collaborator contract. -/
structure Engine where
  bestPattern : String → String → String
  formatToString : String → ℚ → String
  fieldSpans : String → ℚ → List FieldSpan
  isValidZone : String → Bool
  defaultZone : String
  calendarType : String
  numberingSystem : String
  canonicalZoneOf : String → String

/-- The locale returned by the external `ResolveLocale` collaborator:
base tag plus relevant extension keys. -/
structure ResolvedLocaleInfo where
  base : String
  extensions : List (String × String)

/-- The immutable configuration produced by `Initialize`. -/
structure DTFConfig where
  localeBase : String
  localeExtensions : List (String × String)
  hourCycle : HourCycle
  pattern : String
  skeleton : String
  timeZone : String
deriving DecidableEq

/-- Source `CreateTimeZone`: no timezone requested uses the default zone
without validation; otherwise canonicalize (empty = invalid) and ask the
engine whether the canonical id names a real zone. -/
def CreateTimeZone (eng : Engine) (timezone : Option String) : Option String :=
  match timezone with
  | none => some eng.defaultZone
  | some s =>
    let canonicalized := CanonicalizeTimeZoneID s.toList
    if canonicalized = [] then none
    else if eng.isValidZone (String.mk canonicalized) then some (String.mk canonicalized)
    else none

/-- The hour-cycle negotiation of `Initialize` (steps 6-9, the hc
extension consult, and step 29's hour12 finalization): an explicit hour12
clears the hourCycle option and tentatively selects h12/h23; otherwise
the hourCycle option, then the locale's "hc" extension, then undefined. -/
def NegotiateHourCycle (hour12 : Option Bool) (hcOpt : HourCycle)
    (hcExt : Option HourCycle) : HourCycle :=
  let hc1 := if hour12.isSome then HourCycle.kUndefined else hcOpt
  let hc2 := if hour12.isNone ∧ hc1 = HourCycle.kUndefined then
      (match hcExt with
       | some e => e
       | none => hc1)
    else hc1
  if hc2 = HourCycle.kUndefined then
    match hour12 with
    | some true => HourCycle.kH12
    | some false => HourCycle.kH23
    | none => HourCycle.kUndefined
  else hc2

/-- Steps 29-30 of `Initialize` after pattern generation: with an hour
option the negotiated cycle (or, when undefined, the pattern-derived
default) is stored; without an hour option undefined is stored. -/
def StoredHourCycle (negotiated : HourCycle) (hasHourOption : Bool) (pattern : String) :
    HourCycle :=
  if hasHourOption then
    (if negotiated = HourCycle.kUndefined then HourCycleDefault pattern.toList else negotiated)
  else HourCycle.kUndefined

/-- The hc-extension reconciliation at the end of `Initialize`: when the
caller supplied hour12 or an explicit hourCycle and the locale's "hc"
extension disagrees with the stored hour cycle, the extension is removed
from the locale. -/
def StripHcExtension (extensions : List (String × String)) (hour12Present : Bool)
    (hcOpt : HourCycle) (stored : HourCycle) : List (String × String) :=
  if hour12Present = true ∨ hcOpt ≠ HourCycle.kUndefined then
    match extensions.lookup "hc" with
    | some extVal =>
      if stored ≠ ToHourCycle extVal then
        extensions.filter (fun kv => decide (kv.1 ≠ "hc"))
      else extensions
    | none => extensions
  else extensions

/-- The per-field option loop of `Initialize` (step 22): reads each
property, validates it against the allowed values, records whether "hour"
was requested and appends the mapped token to the skeleton. -/
def SkeletonLoop (options : OptionsChain) : List PatternData → Except IntlError (String × Bool)
  | [] => .ok ("", false)
  | item :: rest =>
    match GetStringOption options item.property item.allowed with
    | .error e => .error e
    | .ok none => SkeletonLoop options rest
    | .ok (some s) =>
      match SkeletonLoop options rest with
      | .error e => .error e
      | .ok (sk, hh) =>
        .ok (PatternDataMapFind item.pairs s ++ sk, decide (item.property = "hour") || hh)

/-- Step 2 of `Initialize`: `ToDateTimeOptions(options, "any", "date")`. -/
def InitOptions (inp : Option OptionsChain) : OptionsChain :=
  ToDateTimeOptions inp .kAny .kDate

/-- The InvalidTimeZone exit of `Initialize` step 18: a failed
`CreateTimeZone` raises a RangeError. -/
def TimeZoneOrError (eng : Engine) (tzOpt : Option String) : Except IntlError String :=
  match CreateTimeZone eng tzOpt with
  | none => .error .kInvalidTimeZone
  | some tz => .ok tz

/-- Embeds `JSDateTimeFormat::Initialize` (with `ResolveLocale` and the
engine as explicit collaborators): option wrapping, localeMatcher and
hour12/hourCycle reads, timezone canonicalization and validation,
hour-cycle negotiation, the skeleton loop, formatMatcher validation,
pattern generation on the base locale, hour-cycle storage, and the
hc-extension reconciliation. -/
def InitDateTimeFormat (eng : Engine) (r : ResolvedLocaleInfo)
    (inp : Option OptionsChain) : Except IntlError DTFConfig := do
  let options := InitOptions inp
  let _m ← GetStringOption options "localeMatcher" ["lookup", "best fit"]
  let hour12 := GetBoolOption options "hour12"
  let hcOpt ← GetHourCycle options
  let tzOpt ← GetStringOption options "timeZone" []
  let tzC ← TimeZoneOrError eng tzOpt
  let negotiated := NegotiateHourCycle hour12 hcOpt ((r.extensions.lookup "hc").map ToHourCycle)
  let skhh ← SkeletonLoop options (GetPatternData negotiated)
  let _fm ← GetStringOption options "formatMatcher" ["best fit", "basic"]
  let pattern := eng.bestPattern r.base skhh.1
  let stored := StoredHourCycle negotiated skhh.2 pattern
  return ⟨r.base, StripHcExtension r.extensions hour12.isSome hcOpt stored, stored,
    pattern, skhh.1, tzC⟩

/-! ### Elimination lemmas for the `Except` pipeline -/

theorem except_bind_ok {α β : Type} (x : Except IntlError α) (f : α → Except IntlError β)
    (b : β) (h : (x >>= f) = .ok b) : ∃ a, x = .ok a ∧ f a = .ok b := by
  cases x with
  | error e => simp_all [Bind.bind, Except.bind]
  | ok a =>
    refine ⟨a, rfl, ?_⟩
    simpa [Bind.bind, Except.bind] using h

theorem except_bind_error {α β : Type} (x : Except IntlError α) (f : α → Except IntlError β)
    (e : IntlError) (h : (x >>= f) = .error e) :
    x = .error e ∨ ∃ a, x = .ok a ∧ f a = .error e := by
  cases x with
  | error e0 => simp_all [Bind.bind, Except.bind]
  | ok a =>
    right
    refine ⟨a, rfl, ?_⟩
    simpa [Bind.bind, Except.bind] using h

theorem getStringOption_error (chain : OptionsChain) (prop : String) (values : List String)
    (e : IntlError) (h : GetStringOption chain prop values = .error e) :
    e = .kInvalidOptionValue := by
  unfold GetStringOption at h
  split at h
  · exact Except.noConfusion h
  · split at h
    · exact Except.noConfusion h
    · injection h with h1
      exact h1.symm

theorem getHourCycle_error (chain : OptionsChain) (e : IntlError)
    (h : GetHourCycle chain = .error e) : e = .kInvalidOptionValue := by
  unfold GetHourCycle at h
  cases hv : GetStringOption chain "hourCycle" ["h11", "h12", "h23", "h24"] with
  | error e0 =>
    rw [hv] at h
    injection h with h1
    subst h1
    exact getStringOption_error _ _ _ _ hv
  | ok o =>
    rw [hv] at h
    cases o <;> exact Except.noConfusion h

theorem skeletonLoop_error (options : OptionsChain) (items : List PatternData) (e : IntlError)
    (h : SkeletonLoop options items = .error e) : e = .kInvalidOptionValue := by
  induction items with
  | nil => exact Except.noConfusion h
  | cons item rest ih =>
    rw [SkeletonLoop] at h
    cases hv : GetStringOption options item.property item.allowed with
    | error e0 =>
      rw [hv] at h
      injection h with h1
      subst h1
      exact getStringOption_error _ _ _ _ hv
    | ok o =>
      rw [hv] at h
      cases o with
      | none => exact ih h
      | some s =>
        cases hrest : SkeletonLoop options rest with
        | error e0 =>
          rw [hrest] at h
          injection h with h1
          subst h1
          exact ih hrest
        | ok p =>
          rw [hrest] at h
          exact Except.noConfusion h

theorem initDTF_ok_elim (eng : Engine) (r : ResolvedLocaleInfo) (inp : Option OptionsChain)
    (cfg : DTFConfig) (h : InitDateTimeFormat eng r inp = .ok cfg) :
    ∃ (hcOpt : HourCycle) (tzOpt : Option String) (tzC : String) (skhh : String × Bool),
      GetHourCycle (InitOptions inp) = .ok hcOpt ∧
      GetStringOption (InitOptions inp) "timeZone" [] = .ok tzOpt ∧
      CreateTimeZone eng tzOpt = some tzC ∧
      SkeletonLoop (InitOptions inp)
        (GetPatternData (NegotiateHourCycle (GetBoolOption (InitOptions inp) "hour12") hcOpt
          ((r.extensions.lookup "hc").map ToHourCycle))) = .ok skhh ∧
      cfg =
        (let negotiated := NegotiateHourCycle (GetBoolOption (InitOptions inp) "hour12") hcOpt
            ((r.extensions.lookup "hc").map ToHourCycle)
         let pattern := eng.bestPattern r.base skhh.1
         let stored := StoredHourCycle negotiated skhh.2 pattern
         ⟨r.base,
          StripHcExtension r.extensions (GetBoolOption (InitOptions inp) "hour12").isSome
            hcOpt stored,
          stored, pattern, skhh.1, tzC⟩) := by
  unfold InitDateTimeFormat at h
  obtain ⟨m, hm, h⟩ := except_bind_ok _ _ _ h
  obtain ⟨hcOpt, hhc, h⟩ := except_bind_ok _ _ _ h
  obtain ⟨tzOpt, htz, h⟩ := except_bind_ok _ _ _ h
  obtain ⟨tzC, htzc, h⟩ := except_bind_ok _ _ _ h
  obtain ⟨skhh, hskel, h⟩ := except_bind_ok _ _ _ h
  obtain ⟨fm, hfm, h⟩ := except_bind_ok _ _ _ h
  have htzc' : CreateTimeZone eng tzOpt = some tzC := by
    unfold TimeZoneOrError at htzc
    cases hct : CreateTimeZone eng tzOpt with
    | none => rw [hct] at htzc; exact Except.noConfusion htzc
    | some tz =>
      rw [hct] at htzc
      injection htzc with h1
      rw [h1]
  refine ⟨hcOpt, tzOpt, tzC, skhh, hhc, htz, htzc', hskel, ?_⟩
  simp only [pure, Except.pure] at h
  injection h with h1
  exact h1.symm

theorem initDTF_error_elim (eng : Engine) (r : ResolvedLocaleInfo) (inp : Option OptionsChain)
    (e : IntlError) (h : InitDateTimeFormat eng r inp = .error e) :
    e = .kInvalidOptionValue ∨ e = .kInvalidTimeZone := by
  unfold InitDateTimeFormat at h
  rcases except_bind_error _ _ _ h with h1 | ⟨m, hm, h⟩
  · exact Or.inl (getStringOption_error _ _ _ _ h1)
  rcases except_bind_error _ _ _ h with h1 | ⟨hcOpt, hhc, h⟩
  · exact Or.inl (getHourCycle_error _ _ h1)
  rcases except_bind_error _ _ _ h with h1 | ⟨tzOpt, htz, h⟩
  · exact Or.inl (getStringOption_error _ _ _ _ h1)
  rcases except_bind_error _ _ _ h with h1 | ⟨tzC, htzc, h⟩
  · unfold TimeZoneOrError at h1
    cases hct : CreateTimeZone eng tzOpt with
    | none =>
      rw [hct] at h1
      injection h1 with h2
      exact Or.inr h2.symm
    | some tz => rw [hct] at h1; exact Except.noConfusion h1
  rcases except_bind_error _ _ _ h with h1 | ⟨skhh, hskel, h⟩
  · exact Or.inl (skeletonLoop_error _ _ _ h1)
  rcases except_bind_error _ _ _ h with h1 | ⟨fm, hfm, h⟩
  · exact Or.inl (getStringOption_error _ _ _ _ h1)
  simp only [pure, Except.pure] at h
  exact Except.noConfusion h

theorem skeletonLoop_hour_requires_option (options : OptionsChain) (items : List PatternData)
    (sk : String) (h : SkeletonLoop options items = .ok (sk, true)) :
    ∃ item ∈ items, item.property = "hour" ∧
      ∃ s, GetStringOption options item.property item.allowed = .ok (some s) := by
  induction items generalizing sk with
  | nil =>
    rw [SkeletonLoop] at h
    injection h with h1
    exact absurd (congrArg Prod.snd h1) (by simp)
  | cons item rest ih =>
    rw [SkeletonLoop] at h
    cases hv : GetStringOption options item.property item.allowed with
    | error e => rw [hv] at h; exact Except.noConfusion h
    | ok o =>
      rw [hv] at h
      cases o with
      | none =>
        obtain ⟨it, hmem, hrest⟩ := ih sk h
        exact ⟨it, List.mem_cons_of_mem _ hmem, hrest⟩
      | some s =>
        cases hrest : SkeletonLoop options rest with
        | error e => rw [hrest] at h; exact Except.noConfusion h
        | ok p =>
          obtain ⟨sk0, hh0⟩ := p
          rw [hrest] at h
          injection h with h1
          have h2 : (decide (item.property = "hour") || hh0) = true :=
            congrArg Prod.snd h1
          rcases Bool.or_eq_true_iff.mp h2 with hp | hp
          · exact ⟨item, by simp, decide_eq_true_eq.mp hp, s, hv⟩
          · subst hp
            obtain ⟨it, hmem, hrec⟩ := ih sk0 hrest
            exact ⟨it, List.mem_cons_of_mem _ hmem, hrec⟩

theorem hour_absent_no_hour_option (options : OptionsChain) (items : List PatternData)
    (skhh : String × Bool) (habs : GetPropertyOrElement options "hour" = none)
    (h : SkeletonLoop options items = .ok skhh) : skhh.2 = false := by
  obtain ⟨sk, hh⟩ := skhh
  cases hh with
  | false => rfl
  | true =>
    obtain ⟨item, _, hprop, s, hs⟩ := skeletonLoop_hour_requires_option options items sk h
    rw [hprop] at hs
    unfold GetStringOption at hs
    rw [habs] at hs
    injection hs with h1
    exact Option.noConfusion h1

theorem lookup_none_of_keys_ne {β : Type} (key : String) (l : List (String × β))
    (h : ∀ kv ∈ l, kv.1 ≠ key) : l.lookup key = none := by
  induction l with
  | nil => rfl
  | cons kv rest ih =>
    obtain ⟨k, v⟩ := kv
    have hne : k ≠ key := h (k, v) (by simp)
    have hbeq : (key == k) = false := beq_eq_false_iff_ne.mpr (fun he => hne he.symm)
    simp only [List.lookup, hbeq]
    exact ih (fun kv hk => h kv (List.mem_cons_of_mem _ hk))

theorem lookup_filter_ne (key : String) (l : List (String × String)) :
    (l.filter (fun kv => decide (kv.1 ≠ key))).lookup key = none := by
  apply lookup_none_of_keys_ne
  intro kv hkv
  have hp := List.of_mem_filter hkv
  simpa using hp

/-! ## Resolved options (source `JSDateTimeFormat::ResolvedOptions`) -/

/-- Source `JSDateTimeFormat::HourCycleAsString`. -/
def HourCycleAsString : HourCycle → String
  | .kUndefined => "undefined"
  | .kH11 => "h11"
  | .kH12 => "h12"
  | .kH23 => "h23"
  | .kH24 => "h24"

/-- The legacy calendar-name remap of `ResolvedOptions`. -/
def RemapCalendar (s : String) : String :=
  if s = "gregorian" then "gregory"
  else if s = "ethiopic-amete-alem" then "ethioaa"
  else s

/-- The timeZone reported by `ResolvedOptions`: the engine's canonical id,
with Etc/UTC and Etc/GMT reported as "UTC". -/
def ReportedTimeZone (eng : Engine) (cfg : DTFConfig) : String :=
  if eng.canonicalZoneOf cfg.timeZone = "Etc/UTC" ∨
      eng.canonicalZoneOf cfg.timeZone = "Etc/GMT" then "UTC"
  else eng.canonicalZoneOf cfg.timeZone

/-- The locale tag reported by `ResolvedOptions` (`Intl::ToLanguageTag`):
base tag followed by the remaining extension key/value pairs. -/
def RenderLocaleTag (base : String) (exts : List (String × String)) : String :=
  base ++ String.join (exts.map (fun kv => "-" ++ kv.1 ++ "-" ++ kv.2))

/-- Embeds `JSDateTimeFormat::ResolvedOptions` as the ordered key/value
list it creates: locale, calendar, numberingSystem (omitted when empty),
timeZone, then hourCycle immediately followed by hour12 (both omitted
when the stored hour cycle is undefined), then the reverse-mapped
fields. -/
def ResolvedOptionsList (eng : Engine) (cfg : DTFConfig) : List (String × String) :=
  [("locale", RenderLocaleTag cfg.localeBase cfg.localeExtensions),
   ("calendar", RemapCalendar eng.calendarType)] ++
  (if eng.numberingSystem ≠ "" then [("numberingSystem", eng.numberingSystem)] else []) ++
  [("timeZone", ReportedTimeZone eng cfg)] ++
  (match cfg.hourCycle with
   | HourCycle.kUndefined => []
   | hc =>
     [("hourCycle", HourCycleAsString hc),
      ("hour12", if hc = HourCycle.kH11 ∨ hc = HourCycle.kH12 then "true" else "false")]) ++
  ReverseMapFields cfg.pattern.toList

theorem reverseMapFields_key (p : Str) (kv : String × String)
    (h : kv ∈ ReverseMapFields p) : kv.1 ∈ GetPatternItems.map PatternItem.property := by
  unfold ReverseMapFields at h
  obtain ⟨item, hmem, heq⟩ := List.mem_filterMap.mp h
  cases hscan : ScanPairs p item.pairs with
  | none => rw [hscan] at heq; exact Option.noConfusion heq
  | some v =>
    rw [hscan] at heq
    injection heq with h1
    rw [← h1]
    exact List.mem_map_of_mem _ hmem

theorem resolvedOptions_no_hour_keys (eng : Engine) (cfg : DTFConfig)
    (hc : cfg.hourCycle = .kUndefined) :
    (ResolvedOptionsList eng cfg).lookup "hourCycle" = none ∧
    (ResolvedOptionsList eng cfg).lookup "hour12" = none := by
  have hprops1 : ∀ x ∈ GetPatternItems.map PatternItem.property, x ≠ "hourCycle" := by decide
  have hprops2 : ∀ x ∈ GetPatternItems.map PatternItem.property, x ≠ "hour12" := by decide
  constructor <;>
  · apply lookup_none_of_keys_ne
    intro kv hkv
    unfold ResolvedOptionsList at hkv
    rw [hc] at hkv
    rcases List.mem_append.mp hkv with h1 | hkv
    · rcases List.mem_append.mp h1 with h2 | hkv2
      · rcases List.mem_append.mp h2 with h3 | hkv3
        · rcases List.mem_append.mp h3 with h4 | hkv4
          · simp only [List.mem_cons, List.not_mem_nil, or_false] at h4
            have hfst : kv.1 = "locale" ∨ kv.1 = "calendar" := by
              rcases h4 with rfl | rfl
              · exact Or.inl rfl
              · exact Or.inr rfl
            rcases hfst with hfst | hfst <;> rw [hfst] <;> decide
          · revert hkv4
            split
            · intro hkv4
              simp only [List.mem_singleton] at hkv4
              have hfst : kv.1 = "numberingSystem" := by rw [hkv4]
              rw [hfst]
              decide
            · intro hkv4
              exact absurd hkv4 (List.not_mem_nil kv)
        · simp only [List.mem_singleton] at hkv3
          have hfst : kv.1 = "timeZone" := by rw [hkv3]
          rw [hfst]
          decide
      · exact absurd hkv2 (List.not_mem_nil kv)
    · first
      | exact hprops1 kv.1 (reverseMapFields_key _ kv hkv)
      | exact hprops2 kv.1 (reverseMapFields_key _ kv hkv)

theorem negotiateHourCycle_hour12 (b : Bool) (hcOpt : HourCycle) (hcExt : Option HourCycle) :
    NegotiateHourCycle (some b) hcOpt hcExt =
      (if b then HourCycle.kH12 else HourCycle.kH23) := by
  cases b <;> simp [NegotiateHourCycle, Option.isSome, Option.isNone]

/-! ## Time values, format and the convenience entry point -/

/-- ECMAScript ToInteger on a finite time value: truncation toward zero
(source `DoubleToInteger` as used by `DateCache::TimeClip`). -/
def DoubleToIntegerModel (x : ℚ) : ℚ := ((x.num.tdiv (x.den : Int) : Int) : ℚ)

/-- Source `DateCache::TimeClip`: NaN (modelled as `none`) and values
outside ±8.64e15 ms clip to NaN, finite in-range values are truncated. -/
def TimeClip (t : Option ℚ) : Option ℚ :=
  match t with
  | none => none
  | some x =>
    if -8640000000000000 ≤ x ∧ x ≤ 8640000000000000 then some (DoubleToIntegerModel x)
    else none

/-- Source `FormatDateTime`: clip the time value, throw InvalidTimeValue
when the result is NaN, then let the engine render the pattern. -/
def FormatDateTime (eng : Engine) (cfg : DTFConfig) (x : Option ℚ) :
    Except IntlError String :=
  match TimeClip x with
  | none => .error .kInvalidTimeValue
  | some v => .ok (eng.formatToString cfg.pattern v)

/-- Modelled from the spec: the time-value clipping of the formatToParts
entry point.  The clip is performed by the builtin caller of
`JSDateTimeFormat::FormatToParts`, which is not part of this source file;
per the spec's error model, InvalidTimeValue is surfaced at the
formatToParts call when the timestamp is NaN or out of range, after which
the span walk of `FormatToParts` runs on the engine's output. -/
def FormatToPartsEntry (eng : Engine) (cfg : DTFConfig) (x : Option ℚ) :
    Except IntlError (List FormattedPart) :=
  match TimeClip x with
  | none => .error .kInvalidTimeValue
  | some v =>
    .ok (FormatToPartsList (eng.formatToString cfg.pattern v).toList
      (eng.fieldSpans cfg.pattern v))

/-- Embeds `JSDateTimeFormat::ToLocaleDateTime`: receiver check, the
"Invalid Date" early return on a NaN time value, the single-slot cache
(usable only when both locales and options are undefined), option
defaulting, formatter construction, and formatting. -/
def ToLocaleDateTime (eng : Engine) (cached : Option DTFConfig) (r : ResolvedLocaleInfo)
    (date : Option (Option ℚ)) (locales : Option (List String))
    (options : Option OptionsChain) (required : RequiredOption) (defaults : DefaultsOption) :
    Except IntlError String :=
  match date with
  | none => .error .kWrongReceiver
  | some none => .ok "Invalid Date"
  | some (some xv) =>
    match (if locales.isNone && options.isNone then cached else none) with
    | some cfg => FormatDateTime eng cfg (some xv)
    | none =>
      match InitDateTimeFormat eng r (some (ToDateTimeOptions options required defaults)) with
      | .error e => .error e
      | .ok cfg => FormatDateTime eng cfg (some xv)

deriving instance DecidableEq for Except

/-- A concrete engine used by witnesses: pattern generation echoes the
skeleton, formatting echoes the pattern, every zone is valid. -/
def TrivialEngine : Engine :=
  ⟨fun _ sk => sk, fun p _ => p, fun _ _ => [], fun _ => true, "UTC", "gregorian", "latn",
   fun z => z⟩

/-- A concrete configuration used by witnesses. -/
def TrivialConfig : DTFConfig := ⟨"en", [], .kUndefined, "", "", "UTC"⟩

/-- C2: an explicitly set hour12 wins outright over any hourCycle option:
the negotiated hour cycle ignores the hourCycle option entirely,
hour12=true tentatively selects h12 and hour12=false h23; consequently
with hour12=true the stored hour cycle is never h23 or h24 (it is h12
whenever the hour field is requested, and undefined otherwise), even when
the caller also passed hourCycle="h23". -/
theorem claim_C2_hour12_precedence :
    (∀ (hcOpt : HourCycle) (hcExt : Option HourCycle),
      NegotiateHourCycle (some true) hcOpt hcExt = .kH12 ∧
      NegotiateHourCycle (some false) hcOpt hcExt = .kH23) ∧
    (∀ hcExt : Option HourCycle,
      NegotiateHourCycle (some true) (ToHourCycle "h23") hcExt = .kH12) ∧
    (∀ (eng : Engine) (r : ResolvedLocaleInfo) (inp : Option OptionsChain) (cfg : DTFConfig),
      GetBoolOption (InitOptions inp) "hour12" = some true →
      InitDateTimeFormat eng r inp = .ok cfg →
      cfg.hourCycle = .kUndefined ∨ cfg.hourCycle = .kH12) ∧
    (∀ (eng : Engine) (r : ResolvedLocaleInfo) (inp : Option OptionsChain) (cfg : DTFConfig)
        (sk : String),
      GetBoolOption (InitOptions inp) "hour12" = some true →
      InitDateTimeFormat eng r inp = .ok cfg →
      SkeletonLoop (InitOptions inp) (GetPatternData .kH12) = .ok (sk, true) →
      cfg.hourCycle = .kH12) := by
  refine ⟨?_, ?_, ?_, ?_⟩
  · intro hcOpt hcExt
    exact ⟨negotiateHourCycle_hour12 true hcOpt hcExt, negotiateHourCycle_hour12 false hcOpt hcExt⟩
  · intro hcExt
    exact negotiateHourCycle_hour12 true (ToHourCycle "h23") hcExt
  · intro eng r inp cfg hh12 h
    obtain ⟨hcOpt, tzOpt, tzC, skhh, hhc, htz, htzc, hskel, hcfg⟩ := initDTF_ok_elim eng r inp cfg h
    rw [hh12] at hcfg
    rw [negotiateHourCycle_hour12 true hcOpt ((r.extensions.lookup "hc").map ToHourCycle)] at hcfg
    simp only [if_true] at hcfg
    rw [hcfg]
    simp only [StoredHourCycle]
    cases hhh : skhh.2 with
    | false => simp
    | true => simp
  · intro eng r inp cfg sk hh12 h hskel2
    obtain ⟨hcOpt, tzOpt, tzC, skhh, hhc, htz, htzc, hskel, hcfg⟩ := initDTF_ok_elim eng r inp cfg h
    rw [hh12] at hcfg hskel
    rw [negotiateHourCycle_hour12 true hcOpt ((r.extensions.lookup "hc").map ToHourCycle)]
      at hcfg hskel
    simp only [if_true] at hcfg hskel
    rw [hskel2] at hskel
    injection hskel with h1
    rw [hcfg, ← h1]
    simp [StoredHourCycle]

/-- Witness for C2: a caller passing hour12=true, hourCycle="h23" and
hour="numeric" ends with stored hour cycle h12; the skeleton uses the h12
token "h". -/
theorem claim_C2_witness :
    GetBoolOption (InitOptions (some [[("hour12", OptVal.vBool true),
        ("hourCycle", OptVal.vStr "h23"), ("hour", OptVal.vStr "numeric")]])) "hour12" =
      some true ∧
    InitDateTimeFormat TrivialEngine ⟨"en", [("hc", "h23")]⟩
        (some [[("hour12", OptVal.vBool true), ("hourCycle", OptVal.vStr "h23"),
          ("hour", OptVal.vStr "numeric")]]) =
      .ok ⟨"en", [], .kH12, "h", "h", "UTC"⟩ ∧
    (⟨"en", [], .kH12, "h", "h", "UTC"⟩ : DTFConfig).hourCycle = .kH12 := by
  refine ⟨by decide, by decide, ?_⟩
  exact claim_C2_hour12_precedence.2.2.2 TrivialEngine ⟨"en", [("hc", "h23")]⟩
    (some [[("hour12", OptVal.vBool true), ("hourCycle", OptVal.vStr "h23"),
      ("hour", OptVal.vStr "numeric")]])
    ⟨"en", [], .kH12, "h", "h", "UTC"⟩ "h" (by decide) (by decide) (by decide)

/-- C6: `format` and `formatToParts` fail with InvalidTimeValue exactly
when the timestamp clips to NaN (it is NaN or outside the representable
±8.64e15 ms range), and `initialize` never surfaces InvalidTimeValue (its
only failures are InvalidOptionValue and InvalidTimeZone). -/
theorem claim_C6_invalid_time_value :
    (∀ (eng : Engine) (cfg : DTFConfig) (x : Option ℚ),
      FormatDateTime eng cfg x = .error .kInvalidTimeValue ↔ TimeClip x = none) ∧
    (∀ (eng : Engine) (cfg : DTFConfig) (x : Option ℚ),
      FormatToPartsEntry eng cfg x = .error .kInvalidTimeValue ↔ TimeClip x = none) ∧
    TimeClip none = none ∧
    (∀ q : ℚ, TimeClip (some q) = none ↔
      ¬(-8640000000000000 ≤ q ∧ q ≤ 8640000000000000)) ∧
    (∀ (eng : Engine) (r : ResolvedLocaleInfo) (inp : Option OptionsChain),
      InitDateTimeFormat eng r inp ≠ .error .kInvalidTimeValue) := by
  refine ⟨?_, ?_, rfl, ?_, ?_⟩
  · intro eng cfg x
    unfold FormatDateTime
    cases ht : TimeClip x <;> simp
  · intro eng cfg x
    unfold FormatToPartsEntry
    cases ht : TimeClip x <;> simp
  · intro q
    have hq : TimeClip (some q) =
        (if -8640000000000000 ≤ q ∧ q ≤ 8640000000000000 then some (DoubleToIntegerModel q)
         else none) := rfl
    rw [hq]
    by_cases hc : (-8640000000000000 : ℚ) ≤ q ∧ q ≤ 8640000000000000
    · rw [if_pos hc]
      simp [hc]
    · rw [if_neg hc]
      simp [hc]
  · intro eng r inp hbad
    rcases initDTF_error_elim eng r inp _ hbad with h | h <;> exact IntlError.noConfusion h

/-- Witness for C6: NaN and an out-of-range timestamp fail with
InvalidTimeValue in both format entry points, while a failing
initialization (invalid timezone "Europe_5") surfaces InvalidTimeZone,
not InvalidTimeValue. -/
theorem claim_C6_witness :
    FormatDateTime TrivialEngine TrivialConfig none = .error .kInvalidTimeValue ∧
    FormatToPartsEntry TrivialEngine TrivialConfig none = .error .kInvalidTimeValue ∧
    FormatDateTime TrivialEngine TrivialConfig (some 9000000000000000) =
      .error .kInvalidTimeValue ∧
    InitDateTimeFormat TrivialEngine ⟨"en", []⟩ none ≠ .error .kInvalidTimeValue := by
  refine ⟨?_, ?_, ?_, ?_⟩
  · exact (claim_C6_invalid_time_value.1 TrivialEngine TrivialConfig none).mpr rfl
  · exact (claim_C6_invalid_time_value.2.1 TrivialEngine TrivialConfig none).mpr rfl
  · refine (claim_C6_invalid_time_value.1 TrivialEngine TrivialConfig
      (some 9000000000000000)).mpr ?_
    rw [(claim_C6_invalid_time_value.2.2.2.1 9000000000000000)]
    norm_num
  · exact claim_C6_invalid_time_value.2.2.2.2 TrivialEngine ⟨"en", []⟩ none

theorem stripHcExtension_strip (extensions : List (String × String)) (hour12Present : Bool)
    (hcOpt : HourCycle) (stored : HourCycle) (v : String)
    (hsup : hour12Present = true ∨ hcOpt ≠ HourCycle.kUndefined)
    (hext : extensions.lookup "hc" = some v) (hdis : stored ≠ ToHourCycle v) :
    StripHcExtension extensions hour12Present hcOpt stored =
      extensions.filter (fun kv => decide (kv.1 ≠ "hc")) := by
  unfold StripHcExtension
  rw [if_pos hsup]
  cases hl : extensions.lookup "hc" with
  | none => rw [hext] at hl; exact Option.noConfusion hl
  | some v0 =>
    rw [hext] at hl
    injection hl with hv
    subst hv
    show (if stored ≠ ToHourCycle v then
        List.filter (fun kv => decide (kv.1 ≠ "hc")) extensions
      else extensions) = List.filter (fun kv => decide (kv.1 ≠ "hc")) extensions
    rw [if_pos hdis]

/-- C8: when the caller supplied hour12 or an explicit hourCycle option
and the resolved locale's "hc" extension disagrees with the stored hour
cycle, the extension is stripped from the configuration's locale, so it
is absent from the extension map rendered into the locale tag that
resolvedOptions reports. -/
theorem claim_C8_hc_extension_strip (eng : Engine) (r : ResolvedLocaleInfo)
    (inp : Option OptionsChain) (cfg : DTFConfig) (hcOpt : HourCycle)
    (hhc : GetHourCycle (InitOptions inp) = .ok hcOpt)
    (h : InitDateTimeFormat eng r inp = .ok cfg)
    (hsup : (GetBoolOption (InitOptions inp) "hour12").isSome = true ∨ hcOpt ≠ .kUndefined)
    (v : String) (hext : r.extensions.lookup "hc" = some v)
    (hdis : cfg.hourCycle ≠ ToHourCycle v) :
    cfg.localeExtensions.lookup "hc" = none ∧
    (ResolvedOptionsList eng cfg).lookup "locale" =
      some (RenderLocaleTag cfg.localeBase cfg.localeExtensions) := by
  obtain ⟨hcOpt', tzOpt, tzC, skhh, hhc', htz, htzc, hskel, hcfg⟩ := initDTF_ok_elim eng r inp cfg h
  rw [hhc] at hhc'
  injection hhc' with heq
  subst heq
  constructor
  · rw [hcfg] at hdis ⊢
    simp only at hdis ⊢
    rw [stripHcExtension_strip r.extensions _ hcOpt _ v hsup hext hdis]
    exact lookup_filter_ne "hc" r.extensions
  · simp [ResolvedOptionsList, List.lookup]

/-- Witness for C8: with hourCycle="h23" requested, hour12=true stored as
h12, and the locale carrying hc=h23, the stripped configuration has no
"hc" extension left. -/
theorem claim_C8_witness :
    (⟨"en", [], .kH12, "h", "h", "UTC"⟩ : DTFConfig).localeExtensions.lookup "hc" = none ∧
    (ResolvedOptionsList TrivialEngine ⟨"en", [], .kH12, "h", "h", "UTC"⟩).lookup "locale" =
      some (RenderLocaleTag "en" []) := by
  have h := claim_C8_hc_extension_strip TrivialEngine ⟨"en", [("hc", "h23")]⟩
    (some [[("hour12", OptVal.vBool true), ("hourCycle", OptVal.vStr "h23"),
      ("hour", OptVal.vStr "numeric")]])
    ⟨"en", [], .kH12, "h", "h", "UTC"⟩ .kH23 (by decide) (by decide)
    (Or.inr (by decide)) "h23" (by decide) (by decide)
  exact h

/-- C9: when the "hour" option is absent from the resolved options view,
initialize stores hour cycle undefined (even if hour12 or hourCycle was
supplied), and resolvedOptions omits both the hourCycle and the hour12
properties. -/
theorem claim_C9_hour_absent (eng : Engine) (r : ResolvedLocaleInfo)
    (inp : Option OptionsChain) (cfg : DTFConfig)
    (habs : GetPropertyOrElement (InitOptions inp) "hour" = none)
    (h : InitDateTimeFormat eng r inp = .ok cfg) :
    cfg.hourCycle = .kUndefined ∧
    (ResolvedOptionsList eng cfg).lookup "hourCycle" = none ∧
    (ResolvedOptionsList eng cfg).lookup "hour12" = none := by
  obtain ⟨hcOpt, tzOpt, tzC, skhh, hhc, htz, htzc, hskel, hcfg⟩ := initDTF_ok_elim eng r inp cfg h
  have hh : skhh.2 = false := hour_absent_no_hour_option (InitOptions inp) _ skhh habs hskel
  have hcyc : cfg.hourCycle = .kUndefined := by
    rw [hcfg]
    simp only
    rw [hh]
    rfl
  exact ⟨hcyc, (resolvedOptions_no_hour_keys eng cfg hcyc).1,
    (resolvedOptions_no_hour_keys eng cfg hcyc).2⟩

/-- Witness for C9: a caller supplying hour12=true and hourCycle="h23"
but no hour field gets a configuration with undefined hour cycle; the
reported options contain neither hourCycle nor hour12. -/
theorem claim_C9_witness :
    InitDateTimeFormat TrivialEngine ⟨"en", []⟩
        (some [[("hour12", OptVal.vBool true), ("hourCycle", OptVal.vStr "h23"),
          ("year", OptVal.vStr "numeric")]]) =
      .ok ⟨"en", [], .kUndefined, "y", "y", "UTC"⟩ ∧
    (⟨"en", [], .kUndefined, "y", "y", "UTC"⟩ : DTFConfig).hourCycle = .kUndefined ∧
    (ResolvedOptionsList TrivialEngine ⟨"en", [], .kUndefined, "y", "y", "UTC"⟩).lookup
      "hourCycle" = none := by
  refine ⟨by decide, ?_, ?_⟩
  · exact (claim_C9_hour_absent TrivialEngine ⟨"en", []⟩
      (some [[("hour12", OptVal.vBool true), ("hourCycle", OptVal.vStr "h23"),
        ("year", OptVal.vStr "numeric")]])
      ⟨"en", [], .kUndefined, "y", "y", "UTC"⟩ (by decide) (by decide)).1
  · exact (claim_C9_hour_absent TrivialEngine ⟨"en", []⟩
      (some [[("hour12", OptVal.vBool true), ("hourCycle", OptVal.vStr "h23"),
        ("year", OptVal.vStr "numeric")]])
      ⟨"en", [], .kUndefined, "y", "y", "UTC"⟩ (by decide) (by decide)).2.1

/-- C10: `toLocaleDateTime` on a receiver date whose stored time value is
NaN returns the literal string "Invalid Date" (no error), regardless of
the locales and options arguments — even options that would make option
resolution or initialization fail — so no options are read and no
configuration is built in that case. -/
theorem claim_C10_invalid_date :
    (∀ (eng : Engine) (cached : Option DTFConfig) (r : ResolvedLocaleInfo)
        (locales : Option (List String)) (options : Option OptionsChain)
        (required : RequiredOption) (defaults : DefaultsOption),
      ToLocaleDateTime eng cached r (some none) locales options required defaults =
        .ok "Invalid Date") ∧
    InitDateTimeFormat TrivialEngine ⟨"en", []⟩
        (some (ToDateTimeOptions (some [[("localeMatcher", OptVal.vStr "bogus")]])
          .kAny .kDate)) =
      .error .kInvalidOptionValue ∧
    ToLocaleDateTime TrivialEngine none ⟨"en", []⟩ (some none) none
      (some [[("localeMatcher", OptVal.vStr "bogus")]]) .kAny .kDate = .ok "Invalid Date" := by
  exact ⟨fun eng cached r locales options required defaults => rfl, by decide, rfl⟩
